import Mathlib

/-!
Verification model of the litest test runner.

The definitions below are a shallow embedding of the JavaScript sources:
`src/test-hooks.js` (side-channel hook registry), `src/timeout.js`
(`withTimeout`), `it.js` (test construction, `it.only`, `it.each`),
`describe.js` (suite tree shape) and the `TestRunner` class
(`runSuite`, `runTestWithHooks`, `hasOnlyInChildren`).

Effectful JavaScript is modelled by explicit state passing: a run threads an
execution state holding the side-channel registry, an ordered trace of
observable events (hook/body invocations and warnings) and a millisecond
clock.  Test bodies and lifecycle hooks are modelled as `Action`s which, when
invoked on a given attempt number, consume time, may register side-channel
hooks, and either succeed or throw an error message.  Promise timeouts become
a comparison between the unit of work's settlement time and the deadline (the
work is never cancelled, so its effects happen regardless, matching the
source's abandon-but-do-not-cancel race).  Absent object fields (such as the
missing `retry` field on tests created by `it.only`, whose `undefined + 1`
yields `NaN`) are modelled with `Option`: a `none` retry makes the attempt
loop run zero times, exactly as `attempts < NaN` is false.
-/

set_option maxRecDepth 4000

namespace Litest

/-- Outcome status of one test, as in the Result objects of the runner. -/
inductive Status where
  | passed
  | failed
  | skipped
  | todo
deriving DecidableEq, Repr

/-- One entry of the flat result sequence produced by the walker.  `error`
holds the error message when present. -/
structure TestResult where
  name : String
  fullName : String
  status : Status
  error : Option String
  duration : Nat
deriving DecidableEq, Repr

/-- Abbreviation for building a result record. -/
def mkResult (name fullName : String) (status : Status) (error : Option String)
    (duration : Nat) : TestResult :=
  ⟨name, fullName, status, error, duration⟩

/-- Observable behaviour of a side-channel callback registered through
`onTestFinished` / `onTestFailed`: its trace label, and the error message it
throws when invoked (`none` when it returns normally). -/
structure SideHook where
  label : String
  errMsg : Option String := none
deriving DecidableEq, Repr

/-- Observable trace events: invocation of a hook or test body, and warnings
printed by the runner (`console.warn`). -/
inductive Event where
  | run (label : String)
  | warn (msg : String)
deriving DecidableEq, Repr

/-- Lookup in a JavaScript `Map` keyed by test identifiers. -/
def mapGet {α : Type} : List (Nat × α) → Nat → Option α
  | [], _ => none
  | (k2, v) :: rest, k => if k2 = k then some v else mapGet rest k

/-- `Map.set`: replace the value at an existing key, else append a new entry. -/
def mapSet {α : Type} : List (Nat × α) → Nat → α → List (Nat × α)
  | [], k, v => [(k, v)]
  | (k2, v2) :: rest, k, v =>
    if k2 = k then (k2, v) :: rest else (k2, v2) :: mapSet rest k v

/-- `Map.delete`: remove the entry at a key. -/
def mapDelete {α : Type} : List (Nat × α) → Nat → List (Nat × α)
  | [], _ => []
  | (k2, v2) :: rest, k =>
    if k2 = k then mapDelete rest k else (k2, v2) :: mapDelete rest k

/-- The global side-channel registry of `src/test-hooks.js`: two maps from
test identifier to registered callbacks, plus the current test identifier. -/
structure Registry where
  finished : List (Nat × List SideHook)
  failed : List (Nat × List SideHook)
  currentTestId : Option Nat
deriving DecidableEq, Repr

/-- The registry at process start. -/
def initRegistry : Registry := { finished := [], failed := [], currentTestId := none }

/-- Model of `setCurrentTestId`: records the identifier and initialises empty
hook arrays for it when absent. -/
def setCurrentTestId (r : Registry) (testId : Nat) : Registry :=
  let r1 := { r with currentTestId := some testId }
  let r2 :=
    if (mapGet r1.finished testId).isSome then r1
    else { r1 with finished := mapSet r1.finished testId [] }
  if (mapGet r2.failed testId).isSome then r2
  else { r2 with failed := mapSet r2.failed testId [] }

/-- Model of `clearTestHooks`: deletes both map entries for the identifier.
Note that it does not touch `currentTestId`. -/
def clearTestHooks (r : Registry) (testId : Nat) : Registry :=
  { r with
    finished := mapDelete r.finished testId
    failed := mapDelete r.failed testId }

/-- Model of `getCurrentTestId`. -/
def getCurrentTestId (r : Registry) : Option Nat := r.currentTestId

/-- Model of `onTestFinished`: fails when no current test identifier is set,
otherwise appends the callback to the current identifier's list (re-creating
the map entry when it was deleted, as `get(id) || []` followed by `set`
does). -/
def onTestFinished (r : Registry) (h : SideHook) : Except String Registry :=
  match getCurrentTestId r with
  | none => Except.error "onTestFinished can only be called during test execution"
  | some testId =>
    Except.ok { r with
      finished := mapSet r.finished testId (((mapGet r.finished testId).getD []) ++ [h]) }

/-- Model of `onTestFailed`, the failure-hook variant of `onTestFinished`. -/
def onTestFailed (r : Registry) (h : SideHook) : Except String Registry :=
  match getCurrentTestId r with
  | none => Except.error "onTestFailed can only be called during test execution"
  | some testId =>
    Except.ok { r with
      failed := mapSet r.failed testId (((mapGet r.failed testId).getD []) ++ [h]) }

/-- Model of `executeOnTestFinishedHooks`: runs the registered callbacks in
reverse (LIFO) order; a callback's own error is caught and reported as a
warning without aborting the remaining callbacks. -/
def executeOnTestFinishedHooks (r : Registry) (testId : Nat) : List Event :=
  ((mapGet r.finished testId).getD []).reverse.map fun h =>
    match h.errMsg with
    | none => Event.run h.label
    | some m => Event.warn ("onTestFinished hook failed: " ++ m)

/-- Model of `executeOnTestFailedHooks`, LIFO with per-callback error
containment like `executeOnTestFinishedHooks`. -/
def executeOnTestFailedHooks (r : Registry) (testId : Nat) : List Event :=
  ((mapGet r.failed testId).getD []).reverse.map fun h =>
    match h.errMsg with
    | none => Event.run h.label
    | some m => Event.warn ("onTestFailed hook failed: " ++ m)

/-- Does `pat` occur at the start of `s`? (character-list version). -/
def startsWithList : List Char → List Char → Bool
  | [], _ => true
  | _ :: _, [] => false
  | a :: as, b :: bs => a == b && startsWithList as bs

/-- Does `pat` occur anywhere inside `s`? (character-list version). -/
def hasInfixList : List Char → List Char → Bool
  | pat, [] => startsWithList pat []
  | pat, b :: bs => startsWithList pat (b :: bs) || hasInfixList pat bs

/-- Model of JavaScript `String.prototype.includes`. -/
def strContains (s pat : String) : Bool := hasInfixList pat.toList s.toList

/-- What one invocation of a test body or lifecycle hook does: the
side-channel callbacks it registers (in call order), the milliseconds it
takes to settle, and the error it throws (`none` when it succeeds). -/
structure ActionRun where
  regFinished : List SideHook := []
  regFailed : List SideHook := []
  duration : Nat := 0
  outcome : Option String := none

/-- A test body or lifecycle hook: a trace label plus its behaviour as a
function of the attempt number (1-based), so retried bodies can behave
differently across attempts. -/
structure Action where
  label : String
  run : Nat → ActionRun

/-- An action that succeeds immediately and registers nothing. -/
def act (label : String) : Action := ⟨label, fun _ => {}⟩

/-- An action that throws `msg` immediately. -/
def actErr (label msg : String) : Action := ⟨label, fun _ => { outcome := some msg }⟩

/-- An action that succeeds after `d` milliseconds. -/
def actSlow (label : String) (d : Nat) : Action := ⟨label, fun _ => { duration := d }⟩

/-- Execution state threaded through a run: the side-channel registry, the
ordered event trace, and the clock (`Date.now()` relative to run start). -/
structure ExecState where
  reg : Registry
  events : List Event
  clock : Nat
deriving Repr

/-- The execution state at the start of a module run. -/
def initExecState : ExecState := { reg := initRegistry, events := [], clock := 0 }

/-- Applies a sequence of `onTestFinished` registrations, stopping at the
first usage error (which the registering body then throws). -/
def applyFinishedRegs : Registry → List SideHook → Registry × Option String
  | r, [] => (r, none)
  | r, h :: hs =>
    match onTestFinished r h with
    | Except.error e => (r, some e)
    | Except.ok r2 => applyFinishedRegs r2 hs

/-- Applies a sequence of `onTestFailed` registrations, stopping at the first
usage error. -/
def applyFailedRegs : Registry → List SideHook → Registry × Option String
  | r, [] => (r, none)
  | r, h :: hs =>
    match onTestFailed r h with
    | Except.error e => (r, some e)
    | Except.ok r2 => applyFailedRegs r2 hs

/-- Invoke one action on the given attempt: record its trace event, advance
the clock by its duration, perform its side-channel registrations against the
current registry, and report the error it throws, if any. -/
def runAction (es : ExecState) (a : Action) (attempt : Nat) : ExecState × Option String :=
  let ar := a.run attempt
  let es1 := { es with
    events := es.events ++ [Event.run a.label]
    clock := es.clock + ar.duration }
  match applyFinishedRegs es1.reg ar.regFinished with
  | (reg1, some e) => ({ es1 with reg := reg1 }, some e)
  | (reg1, none) =>
    match applyFailedRegs reg1 ar.regFailed with
    | (reg2, some e) => ({ es1 with reg := reg2 }, some e)
    | (reg2, none) => ({ es1 with reg := reg2 }, ar.outcome)

/-- A declared test, as the object literal built by `it(name, options, fn)`.
`retry = none` models the `retry` field being absent from the object (as on
tests created by `it.only`), which makes `test.retry + 1` evaluate to `NaN`
in the runner. -/
structure Test where
  name : String
  body : Action
  only : Bool
  skip : Bool
  todo : Bool
  fails : Bool
  concurrent : Bool
  timeout : Option Nat
  retry : Option Nat

/-- The options object accepted by `it(name, options, fn)`. -/
structure ItOptions where
  only : Bool := false
  skip : Bool := false
  todo : Bool := false
  fails : Bool := false
  concurrent : Bool := false
  timeout : Option Nat := none
  retry : Option Nat := none

/-- Model of `it(name, options, fn)`: builds the test object with
`retry: options.retry || 0`, so the retry field is always present. -/
def it (name : String) (opts : ItOptions) (fn : Action) : Test :=
  { name := name
    body := fn
    only := opts.only
    skip := opts.skip
    todo := opts.todo
    fails := opts.fails
    concurrent := opts.concurrent
    timeout := opts.timeout
    retry := some (opts.retry.getD 0) }

/-- Model of `it.only(name, fn)`: the object literal it pushes has `only`
and `skip` but no `todo`, `fails`, `concurrent`, `timeout` or `retry` fields;
the absent fields are `undefined`, in particular `retry` is absent. -/
def itOnly (name : String) (fn : Action) : Test :=
  { name := name
    body := fn
    only := true
    skip := false
    todo := false
    fails := false
    concurrent := false
    timeout := none
    retry := none }

/-- Placeholder substitution of `it.each`: scans the name template
left-to-right; every `%` followed by one of `s d i o %` consumes the next
value of the case array (JavaScript `shift()`), `String(undefined)` when the
array is exhausted.  Other characters are kept. -/
def substPlaceholders : List Char → List Int → List Char
  | [], _ => []
  | '%' :: c :: rest, vals =>
    if c = 's' ∨ c = 'd' ∨ c = 'i' ∨ c = 'o' ∨ c = '%' then
      match vals with
      | [] => "undefined".toList ++ substPlaceholders rest []
      | v :: vs => (toString v).toList ++ substPlaceholders rest vs
    else '%' :: substPlaceholders (c :: rest) vals
  | ch :: rest, vals => ch :: substPlaceholders rest vals

/-- Worker for `itEachArr`, carrying the case index used for the fallback
name `"name [index]"` when the substituted name is empty. -/
def itEachArrGo (tmpl : String) (fn : List Int → Option String) (idx : Nat) :
    List (List Int) → List Test
  | [] => []
  | tc :: rest =>
    let testName := String.mk (substPlaceholders tmpl.toList tc)
    let finalName := if testName = "" then tmpl ++ " [" ++ toString idx ++ "]" else testName
    it finalName {} { label := finalName, run := fun _ => { outcome := fn tc } }
      :: itEachArrGo tmpl fn (idx + 1) rest

/-- Model of `it.each(cases)(name, fn)` for an array of array-valued cases:
one registration per case, the name obtained by placeholder substitution on a
copy of the case (the original array is spread into the body unmodified), the
body invoking `fn` on the case's values as positional arguments.  The body's
verdict is modelled as `fn` returning `none` (assertion passes) or an error
message. -/
def itEachArr (cases : List (List Int)) (tmpl : String)
    (fn : List Int → Option String) : List Test :=
  itEachArrGo tmpl fn 0 cases

/-- The setup-each / teardown-each hook lists accumulated from ancestor
suites down to the current suite, as threaded through `runSuite`. -/
structure CurrentHooks where
  beforeEach : List Action := []
  afterEach : List Action := []

/-- Run the accumulated `beforeEach` hooks in order inside the unit of work;
a hook error aborts with the wrap `beforeEach hook failed: <message>`. -/
def runSetupEach (es : ExecState) (attempt : Nat) : List Action → ExecState × Option String
  | [] => (es, none)
  | h :: hs =>
    match runAction es h attempt with
    | (es2, some m) => (es2, some ("beforeEach hook failed: " ++ m))
    | (es2, none) => runSetupEach es2 attempt hs

/-- Run the accumulated `afterEach` hooks (already reversed: child before
parent) inside the unit of work; a hook error aborts with the wrap
`afterEach hook failed: <message>`. -/
def runUnitTeardown (es : ExecState) (attempt : Nat) : List Action → ExecState × Option String
  | [] => (es, none)
  | h :: hs =>
    match runAction es h attempt with
    | (es2, some m) => (es2, some ("afterEach hook failed: " ++ m))
    | (es2, none) => runUnitTeardown es2 attempt hs

/-- The unit of work that `runTestWithHooks` races against the timer:
`beforeEach` hooks in accumulated order, then the body, then `afterEach`
hooks in reverse accumulated order. -/
def runUnitOfWork (es : ExecState) (hooks : CurrentHooks) (body : Action)
    (attempt : Nat) : ExecState × Option String :=
  match runSetupEach es attempt hooks.beforeEach with
  | (es1, some e) => (es1, some e)
  | (es1, none) =>
    match runAction es1 body attempt with
    | (es2, some e) => (es2, some e)
    | (es2, none) => runUnitTeardown es2 attempt hooks.afterEach.reverse

/-- Model of `withTimeout`'s race: the unit of work started at clock value
`baseClock` and produced `out`; if the deadline elapsed at or before the
settlement, the timer's rejection `Test timed out after <t>ms` wins and the
caller resumes at the deadline; otherwise the timer is cancelled and the
settlement propagates.  The work's effects stand in either case (it is never
cancelled). -/
def applyTimeout (tmo baseClock : Nat) (es : ExecState) (out : Option String) :
    ExecState × Option String :=
  if tmo ≤ es.clock - baseClock then
    ({ es with clock := baseClock + tmo },
      some ("Test timed out after " ++ toString tmo ++ "ms"))
  else (es, out)

/-- Effective deadline for one attempt: `test.timeout || undefined` passed to
`withTimeout(fn, timeout = globalTimeout)`, so a falsy per-test timeout (<-
absent or zero) falls back to the global timeout. -/
def effTimeout (t : Test) (globalTimeout : Nat) : Nat :=
  match t.timeout with
  | some v => if v = 0 then globalTimeout else v
  | none => globalTimeout

/-- Best-effort extra teardown run from the retry loop's catch block: runs
the reversed `afterEach` hooks; the first hook error is logged as the warning
`afterEach hook failed after test failure: <message>` and aborts the
remaining hooks without failing the test further. -/
def runExtraTeardown (es : ExecState) (attempt : Nat) : List Action → ExecState
  | [] => es
  | h :: hs =>
    match runAction es h attempt with
    | (es2, some m) =>
      { es2 with events := es2.events ++
          [Event.warn ("afterEach hook failed after test failure: " ++ m)] }
    | (es2, none) => runExtraTeardown es2 attempt hs

/-- The retry loop of `runTestWithHooks`: runs up to `remaining` further
attempts of the timed unit of work.  On a successful attempt the result is
recorded (inverted when the test is declared `fails`).  On a failed attempt
the reversed `afterEach` hooks are re-run best-effort unless the error
message contains `"timed out"`; when the budget is exhausted the last error
is recorded (again inverted under `fails`). -/
def runAttempts (globalTimeout : Nat) (es : ExecState) (t : Test) (fullName : String)
    (hooks : CurrentHooks) (startClock attempt : Nat) :
    Nat → ExecState × Option TestResult
  | 0 => (es, none)
  | remaining + 1 =>
    let tmo := effTimeout t globalTimeout
    let baseClock := es.clock
    let work := runUnitOfWork es hooks t.body attempt
    let raced := applyTimeout tmo baseClock work.1 work.2
    let es2 := raced.1
    match raced.2 with
    | none =>
      let dur := es2.clock - startClock
      if t.fails then
        (es2, some (mkResult t.name fullName Status.failed
          (some "Test was expected to fail but passed") dur))
      else
        (es2, some (mkResult t.name fullName Status.passed none dur))
    | some errMsg =>
      let es3 :=
        if strContains errMsg "timed out" then es2
        else runExtraTeardown es2 attempt hooks.afterEach.reverse
      if remaining = 0 then
        let dur := es3.clock - startClock
        if t.fails then
          (es3, some (mkResult t.name fullName Status.passed none dur))
        else
          (es3, some (mkResult t.name fullName Status.failed (some errMsg) dur))
      else
        runAttempts globalTimeout es3 t fullName hooks startClock (attempt + 1) remaining

/-- Runner state: the execution state plus the generator of fresh test
identifiers (standing for the `fullName-Date.now()-Math.random()` strings). -/
structure RunState where
  es : ExecState
  nextId : Nat
deriving Repr

/-- The runner state at the start of a module run. -/
def initRunState : RunState := { es := initExecState, nextId := 0 }

/-- Model of `TestRunner.runTestWithHooks`: allocates one test identifier for
the whole invocation and makes it current, short-circuits `skip`/`todo`
tests, otherwise runs the retry loop with `retry + 1` attempts (zero
attempts when the `retry` field is absent, since `attempts < NaN` is false,
leaving the result `undefined`).  In the `finally` clause, when a result
exists, failure side-channel hooks run if its status is `failed`, then
finish side-channel hooks run unconditionally; finally both callback lists
for the identifier are deleted.  `currentTestId` is not reset. -/
def runTestWithHooks (globalTimeout : Nat) (st : RunState) (t : Test)
    (fullName : String) (hooks : CurrentHooks) : RunState × Option TestResult :=
  let testId := st.nextId
  let es0 := { st.es with reg := setCurrentTestId st.es.reg testId }
  let startClock := es0.clock
  let attempted :=
    if t.skip then
      (es0, some (mkResult t.name fullName Status.skipped none 0))
    else if t.todo then
      (es0, some (mkResult t.name fullName Status.todo none 0))
    else
      match t.retry with
      | none => (es0, none)
      | some r => runAttempts globalTimeout es0 t fullName hooks startClock 1 (r + 1)
  let es1 := attempted.1
  let result := attempted.2
  let es2 :=
    match result with
    | none => es1
    | some res =>
      let ev1 := if res.status = Status.failed then executeOnTestFailedHooks es1.reg testId else []
      let ev2 := executeOnTestFinishedHooks es1.reg testId
      { es1 with events := es1.events ++ ev1 ++ ev2 }
  let es3 := { es2 with reg := clearTestHooks es2.reg testId }
  ({ es := es3, nextId := st.nextId + 1 }, result)

/-- Reference walker over a test list that runs every test unconditionally
through the executor, used to state what the `only` filter is equivalent
to. -/
def runTestsPlain (globalTimeout : Nat) (st : RunState) (tests : List Test)
    (suiteFullName : String) (hooks : CurrentHooks) : RunState × List (Option TestResult) :=
  match tests with
  | [] => (st, [])
  | t :: rest =>
    let (st2, res) := runTestWithHooks globalTimeout st t (suiteFullName ++ " " ++ t.name) hooks
    let (st3, more) := runTestsPlain globalTimeout st2 rest suiteFullName hooks
    (st3, res :: more)

/-- The per-suite hook lists of `describe.js`. -/
structure Hooks where
  beforeAll : List Action := []
  beforeEach : List Action := []
  afterAll : List Action := []
  afterEach : List Action := []

mutual
/-- A suite node as built by `describe`: name, own tests, `only`/`skip`
flags, lifecycle hooks and nested child suites. -/
inductive Suite where
  | mk (name : String) (tests : List Test) (only : Bool) (skip : Bool)
      (hooks : Hooks) (children : SuiteList)
/-- A sequence of sibling suites (the `suites` arrays of the tree). -/
inductive SuiteList where
  | nil
  | cons (s : Suite) (rest : SuiteList)
end

/-- The declared name of a suite. -/
def Suite.name : Suite → String
  | .mk n _ _ _ _ _ => n

/-- The tests declared directly in a suite. -/
def Suite.tests : Suite → List Test
  | .mk _ ts _ _ _ _ => ts

/-- The `only` flag of a suite. -/
def Suite.only : Suite → Bool
  | .mk _ _ o _ _ _ => o

/-- The `skip` flag of a suite. -/
def Suite.skip : Suite → Bool
  | .mk _ _ _ sk _ _ => sk

/-- The lifecycle hooks of a suite. -/
def Suite.hooks : Suite → Hooks
  | .mk _ _ _ _ hk _ => hk

/-- The nested child suites of a suite. -/
def Suite.children : Suite → SuiteList
  | .mk _ _ _ _ _ ch => ch

/-- Convert a plain list of suites into a `SuiteList`. -/
def suiteListOf : List Suite → SuiteList
  | [] => SuiteList.nil
  | s :: rest => SuiteList.cons s (suiteListOf rest)

mutual
/-- Model of `TestRunner.hasOnlyInChildren`: does this suite contain an
`only`-marked test, or a descendant suite that is `only`-marked or does. -/
def hasOnlyInChildren : Suite → Bool
  | Suite.mk _ ts _ _ _ children => ts.any (fun t => t.only) || anyOnlySuiteList children
/-- Disjunction of `suite.only || hasOnlyInChildren(suite)` over a sibling
list, as the loop in `hasOnlyInChildren` computes it. -/
def anyOnlySuiteList : SuiteList → Bool
  | SuiteList.nil => false
  | SuiteList.cons s rest => (s.only || hasOnlyInChildren s) || anyOnlySuiteList rest
end

/-- Run the suite's `beforeAll` hooks in order, each raced against the fixed
10000 ms hook deadline; the first failure aborts with the wrap
`beforeAll hook failed: <message>`, which is fatal for the suite. -/
def runBeforeAllHooks (es : ExecState) : List Action → ExecState × Option String
  | [] => (es, none)
  | h :: hs =>
    let baseClock := es.clock
    let (es1, out0) := runAction es h 1
    let (es2, out) := applyTimeout 10000 baseClock es1 out0
    match out with
    | some m => (es2, some ("beforeAll hook failed: " ++ m))
    | none => runBeforeAllHooks es2 hs

/-- Run the suite's `afterAll` hooks (already reversed), each raced against
the 10000 ms hook deadline; failures are logged as warnings and are not
fatal. -/
def runAfterAllHooks (es : ExecState) : List Action → ExecState
  | [] => es
  | h :: hs =>
    let baseClock := es.clock
    let (es1, out0) := runAction es h 1
    let (es2, out) := applyTimeout 10000 baseClock es1 out0
    let es3 :=
      match out with
      | some m => { es2 with events := es2.events ++ [Event.warn ("afterAll hook failed: " ++ m)] }
      | none => es2
    runAfterAllHooks es3 hs

/-- The test loop of `runSuite`: tests whose `shouldRunTest` check
(`!hasOnlyModifier || test.only`) fails are passed over without emitting
anything; the rest run through the executor and their result is pushed and
then handed to the reporter.  When the executor's result is `undefined` (an
`it.only` test whose attempt loop never ran), the reporter's access to
`result.status` throws, which this model signals in the third component; the
`undefined` entry has already been pushed at that point. -/
def runSuiteTests (globalTimeout : Nat) (st : RunState) (tests : List Test)
    (suiteFullName : String) (hasOnlyModifier : Bool) (hooks : CurrentHooks) :
    RunState × List (Option TestResult) × Option String :=
  match tests with
  | [] => (st, [], none)
  | t :: rest =>
    if hasOnlyModifier && !t.only then
      runSuiteTests globalTimeout st rest suiteFullName hasOnlyModifier hooks
    else
      let (st2, res) := runTestWithHooks globalTimeout st t (suiteFullName ++ " " ++ t.name) hooks
      match res with
      | none => (st2, [none], some "Cannot read properties of undefined (reading 'status')")
      | some r =>
        let (st3, more, thrown) := runSuiteTests globalTimeout st2 rest suiteFullName hasOnlyModifier hooks
        (st3, some r :: more, thrown)

mutual
/-- Model of `TestRunner.runSuite`.  A `skip` suite emits `skipped` results
for its direct tests and then recurses into its children with the inherited
hooks (the children's own flags decide their fate).  Otherwise the suite is
passed over entirely when the module-wide `only` filter excludes it.  The
`beforeAll` hooks then run; a failure there (or a reporter error thrown in
the test loop) is caught by the suite-level catch, which logs the error and
records a `failed` result wrapping it for every direct test passing the
`only` filter — nested suites are not walked on that path.  On the normal
path, the suite's `beforeEach`/`afterEach` hooks are appended to the
inherited ones, the direct tests run, children are walked with the extended
hooks, and the `afterAll` hooks run in reverse with warnings on failure. -/
def runSuite (globalTimeout : Nat) (st : RunState) (s : Suite) (parentName : String)
    (hasOnlyModifier : Bool) (parentHooks : CurrentHooks) :
    RunState × List (Option TestResult) :=
  match s with
  | Suite.mk sname stests sonly sskip shooks schildren =>
    let full := if parentName = "" then sname else parentName ++ " " ++ sname
    if sskip then
      let own : List (Option TestResult) := stests.map fun t =>
        some (mkResult t.name (full ++ " " ++ t.name) Status.skipped none 0)
      let (st2, nested) := runSuites globalTimeout st schildren full hasOnlyModifier parentHooks
      (st2, own ++ nested)
    else if hasOnlyModifier && !sonly
        && !(stests.any (fun t => t.only) || anyOnlySuiteList schildren) then
      (st, [])
    else
      match runBeforeAllHooks st.es shooks.beforeAll with
      | (es1, some e) =>
        let es2 := { es1 with events := es1.events ++
          [Event.warn ("Hook error in suite \"" ++ full ++ "\": " ++ e)] }
        ({ es := es2, nextId := st.nextId },
          (stests.filter (fun t => !hasOnlyModifier || t.only)).map fun t =>
            some (mkResult t.name (full ++ " " ++ t.name) Status.failed
              (some ("Suite hook failed: " ++ e)) 0))
      | (es1, none) =>
        let currentHooks : CurrentHooks :=
          { beforeEach := parentHooks.beforeEach ++ shooks.beforeEach
            afterEach := parentHooks.afterEach ++ shooks.afterEach }
        let (st2, testRes, thrown) :=
          runSuiteTests globalTimeout { es := es1, nextId := st.nextId } stests full
            hasOnlyModifier currentHooks
        match thrown with
        | some e =>
          let es3 := { st2.es with events := st2.es.events ++
            [Event.warn ("Hook error in suite \"" ++ full ++ "\": " ++ e)] }
          ({ es := es3, nextId := st2.nextId },
            testRes ++ (stests.filter (fun t => !hasOnlyModifier || t.only)).map fun t =>
              some (mkResult t.name (full ++ " " ++ t.name) Status.failed
                (some ("Suite hook failed: " ++ e)) 0))
        | none =>
          let (st3, nested) := runSuites globalTimeout st2 schildren full hasOnlyModifier currentHooks
          let es4 := runAfterAllHooks st3.es shooks.afterAll.reverse
          ({ es := es4, nextId := st3.nextId }, testRes ++ nested)
/-- Walk a sibling list of suites in declaration order, concatenating their
result sequences. -/
def runSuites (globalTimeout : Nat) (st : RunState) (ss : SuiteList) (parentName : String)
    (hasOnlyModifier : Bool) (parentHooks : CurrentHooks) :
    RunState × List (Option TestResult) :=
  match ss with
  | SuiteList.nil => (st, [])
  | SuiteList.cons s rest =>
    let (st1, r1) := runSuite globalTimeout st s parentName hasOnlyModifier parentHooks
    let (st2, r2) := runSuites globalTimeout st1 rest parentName hasOnlyModifier parentHooks
    (st2, r1 ++ r2)
end

/-- A loaded test module: the root suites registered while it executed, and
the process-wide `hasOnly` flag set by any `it.only` / `describe.only`
registration. -/
structure TestModule where
  suites : SuiteList
  hasOnly : Bool

/-- The default global timeout of `timeout.js` in milliseconds. -/
def DEFAULT_TIMEOUT : Nat := 5000

/-- Model of `runSpecFile`'s execution phase: walk every root suite in order
from a fresh runner state, passing the module's `hasOnly` flag and empty
inherited hooks. -/
def runModule (m : TestModule) : RunState × List (Option TestResult) :=
  runSuites DEFAULT_TIMEOUT initRunState m.suites "" m.hasOnly {}

/-- Concrete module for the `only` filter: a `describe.only` suite `A` (so
the module-wide `hasOnly` flag is set) containing the single plain test `t`,
which is not itself marked `only`. -/
def fixC1suite : Suite :=
  Suite.mk "A" [it "t" {} (act "tbody")] true false {} SuiteList.nil

/-- Module wrapper around `fixC1suite` with `hasOnly` set, as `describe.only`
leaves the context. -/
def fixC1module : TestModule := { suites := suiteListOf [fixC1suite], hasOnly := true }

/-- Concrete skip scenario: a `describe.skip` suite `P` with direct test `p1`
and a non-skipped child suite `C` owning a `beforeEach` hook and test `c1`. -/
def fixC2child : Suite :=
  Suite.mk "C" [it "c1" {} (act "c1body")] false false { beforeEach := [act "Cbe"] } SuiteList.nil

/-- The skipped parent suite of the skip scenario. -/
def fixC2parent : Suite :=
  Suite.mk "P" [it "p1" {} (act "p1body")] false true {} (suiteListOf [fixC2child])

/-- Module wrapper around the skip scenario. -/
def fixC2module : TestModule := { suites := suiteListOf [fixC2parent], hasOnly := false }

/-- Concrete `beforeAll` failure scenario: suite `S` whose `beforeAll` hook
throws `boom`, with direct test `s1` and child suite `C` holding test `c1`. -/
def fixC3child : Suite :=
  Suite.mk "C" [it "c1" {} (act "c1body")] false false {} SuiteList.nil

/-- The suite with the failing `beforeAll` hook. -/
def fixC3suite : Suite :=
  Suite.mk "S" [it "s1" {} (act "s1body")] false false
    { beforeAll := [actErr "ba" "boom"] } (suiteListOf [fixC3child])

/-- Module wrapper around the `beforeAll` failure scenario. -/
def fixC3module : TestModule := { suites := suiteListOf [fixC3suite], hasOnly := false }

/-- Hook-ordering scenario: child suite `B` with one `beforeEach` and one
`afterEach` hook and the test `t`. -/
def fixC4B : Suite :=
  Suite.mk "B" [it "t" {} (act "tbody")] false false
    { beforeEach := [act "Bbe"], afterEach := [act "Bae"] } SuiteList.nil

/-- Hook-ordering scenario: parent suite `A` with one `beforeEach` and one
`afterEach` hook, containing `B`. -/
def fixC4A : Suite :=
  Suite.mk "A" [] false false
    { beforeEach := [act "Abe"], afterEach := [act "Aae"] } (suiteListOf [fixC4B])

/-- Module wrapper around the hook-ordering scenario. -/
def fixC4module : TestModule := { suites := suiteListOf [fixC4A], hasOnly := false }

/-- Timeout scenario: a test with per-test timeout 50 ms whose body settles
after 500 ms. -/
def fixC5test : Test := it "slow" { timeout := some 50 } (actSlow "slowBody" 500)

/-- A body that fails on the first attempt with an error whose message
merely contains the words `timed out` (it is not a timeout), and passes on
later attempts. -/
def fixC6body : Action :=
  ⟨"body", fun k => if k = 1 then { outcome := some "operation timed out earlier" } else {}⟩

/-- A retried test around `fixC6body`. -/
def fixC6test : Test := it "t" { retry := some 1 } fixC6body

/-- Accumulated hooks for the extra-teardown scenario: one `afterEach`
hook. -/
def fixC6hooks : CurrentHooks := { afterEach := [act "ae"] }

/-- Family of first-attempt-failing bodies indexed by the error message. -/
def fixC6bodyM (m : String) : Action :=
  ⟨"body", fun k => if k = 1 then { outcome := some m } else {}⟩

/-- Family of retried tests around `fixC6bodyM`. -/
def fixC6testM (m : String) : Test := it "t" { retry := some 1 } (fixC6bodyM m)

/-- A passing body that registers finish hooks `f1` then `f2` and failure
hook `g`. -/
def fixC7passBody : Action :=
  ⟨"pbody", fun _ => { regFinished := [⟨"f1", none⟩, ⟨"f2", none⟩], regFailed := [⟨"g", none⟩] }⟩

/-- The passing side-channel test. -/
def fixC7pass : Test := it "p" {} fixC7passBody

/-- A failing body that registers finish hooks `f1`, `f2` and failure hooks
`g1` (which itself throws) and `g2`, then throws `boom`. -/
def fixC7failBody : Action :=
  ⟨"fbody", fun _ =>
    { regFinished := [⟨"f1", none⟩, ⟨"f2", none⟩]
      regFailed := [⟨"g1", some "gboom"⟩, ⟨"g2", none⟩]
      outcome := some "boom" }⟩

/-- The failing side-channel test. -/
def fixC7fail : Test := it "f" {} fixC7failBody

/-- One completed execution of a plain passing test, used to inspect the
registry state the executor leaves behind. -/
def fixC8run : RunState × Option TestResult :=
  runTestWithHooks DEFAULT_TIMEOUT initRunState (it "t" {} (act "tbody")) "S t" {}

/-- A body that registers the finish hook `late1` and throws on the first
attempt, then registers `late2` and passes on the second. -/
def fixC9body : Action :=
  ⟨"rbody", fun k =>
    if k = 1 then { regFinished := [⟨"late1", none⟩], outcome := some "boom1" }
    else { regFinished := [⟨"late2", none⟩] }⟩

/-- The retried test around `fixC9body`. -/
def fixC9test : Test := it "r" { retry := some 1 } fixC9body

/-- The completed execution of the retried side-channel test. -/
def fixC9run : RunState × Option TestResult :=
  runTestWithHooks DEFAULT_TIMEOUT initRunState fixC9test "S r" {}

/-- The arithmetic body of the `each` expansion example: positional
arguments `(a, b, e)` with the assertion `a + b === e`. -/
def addCaseBody : List Int → Option String
  | [a, b, e] => if a + b = e then none else some "expected sum to match"
  | _ => some "unexpected argument count"

/-- The two tests produced by
`it.each([[1,2,3],[2,3,5]])("%i+%i=%i", (a,b,e) => ...)`. -/
def fixC10tests : List Test := itEachArr [[1, 2, 3], [2, 3, 5]] "%i+%i=%i" addCaseBody

/-- A module holding the `each`-expanded tests in the suite `add`. -/
def fixC10module : TestModule :=
  { suites := suiteListOf [Suite.mk "add" fixC10tests false false {} SuiteList.nil]
    hasOnly := false }

/-- A fast test used to instantiate the timeout-race theorem: a plain test
whose body settles successfully after 3 ms. -/
def fixC5fast : Test := it "fast" {} (actSlow "fastBody" 3)

/-- Deleting a key from a registry map makes subsequent lookups of that key
miss. -/
theorem mapGet_mapDelete {α : Type} (m : List (Nat × α)) (k : Nat) :
    mapGet (mapDelete m k) k = none := by
  induction m with
  | nil => rfl
  | cons p rest ih =>
    obtain ⟨k2, v⟩ := p
    by_cases hk : k2 = k
    · simp [mapDelete, hk, ih]
    · simp [mapDelete, mapGet, hk, ih]

/-- C1 counterexample: in a module whose `hasOnly` flag is set by a
`describe.only` suite `A`, the plain test `t` declared inside `A` is marked
`only` via its ancestor, yet the walker emits no Result at all for it — the
per-test check consults only the test's own flag, so the Result sequence of
the module is empty, contradicting the claim that such a test runs normally
and yields one normal Result. -/
theorem C1_counterexample :
    fixC1module.hasOnly = true ∧ fixC1suite.only = true
    ∧ (fixC1suite.tests.map fun t => t.only) = [false]
    ∧ (runModule fixC1module).2 = [] :=
  ⟨rfl, rfl, by decide, by decide⟩

/-- C2 counterexample: under the `describe.skip` suite `P`, the child suite
`C` is not skip-marked, and its test `c1` runs normally — emitting a
`passed` (not `skipped`) Result — and `C`'s own `beforeEach` hook executes,
contradicting the claim that every transitively contained test is emitted as
`skipped` and that none of the suite tree's hooks run. -/
theorem C2_counterexample :
    (runModule fixC2module).2 =
      [some (mkResult "p1" "P p1" Status.skipped none 0),
        some (mkResult "c1" "P C c1" Status.passed none 0)]
    ∧ (runModule fixC2module).1.es.events = [Event.run "Cbe", Event.run "c1body"] :=
  ⟨by decide, by decide⟩

/-- C3 counterexample: when suite `S`'s `beforeAll` hook throws, only the
direct test `s1` receives a `failed` Result; the nested suite `C` is not
walked and its test `c1` receives no Result of any status, contradicting the
claim that every test of every nested suite is recorded as failed. -/
theorem C3_counterexample :
    (runModule fixC3module).2 =
      [some (mkResult "s1" "S s1" Status.failed
        (some "Suite hook failed: beforeAll hook failed: boom") 0)] := by
  decide

/-- C4 (confirmed): for suite `A` containing child suite `B`, each with one
`setupEach` and one `teardownEach` hook, running the test declared in `B`
invokes, in order, `A`'s `beforeEach`, `B`'s `beforeEach`, the body, `B`'s
`afterEach`, `A`'s `afterEach` — setup outer-to-inner, teardown
inner-to-outer — and the test yields one passed Result. -/
theorem C4_hook_ordering :
    (runModule fixC4module).1.es.events =
      [Event.run "Abe", Event.run "Bbe", Event.run "tbody", Event.run "Bae", Event.run "Aae"]
    ∧ (runModule fixC4module).2 = [some (mkResult "t" "A B t" Status.passed none 0)] :=
  ⟨by decide, by decide⟩

/-- C6 counterexample: the test's first attempt fails because its body
throws `operation timed out earlier` (the unit of work settles at 0 ms, far
below the 5000 ms deadline, so the failure is not a timeout), yet the
runner skips the extra best-effort teardown between the attempts — the
`afterEach` hook `ae` runs only once, inside the successful second attempt —
because the skip condition merely checks whether the error message contains
the substring `timed out`.  This contradicts the claimed equivalence
"extra teardown runs iff the failure was not a timeout". -/
theorem C6_counterexample :
    (runTestWithHooks DEFAULT_TIMEOUT initRunState fixC6test "S t" fixC6hooks).1.es.events =
      [Event.run "body", Event.run "body", Event.run "ae"]
    ∧ (runUnitOfWork { initExecState with reg := setCurrentTestId initRegistry 0 }
        fixC6hooks fixC6test.body 1).2 = some "operation timed out earlier"
    ∧ (runUnitOfWork { initExecState with reg := setCurrentTestId initRegistry 0 }
        fixC6hooks fixC6test.body 1).1.clock = 0
    ∧ (runTestWithHooks DEFAULT_TIMEOUT initRunState fixC6test "S t" fixC6hooks).2 =
        some (mkResult "t" "S t" Status.passed none 0) :=
  ⟨by decide, by decide, by decide, by decide⟩

/-- C7 (confirmed): side-channel hooks registered during a test run in LIFO
order after the test concludes; failure hooks run only when the final status
is `failed` and before the finish hooks; finish hooks run regardless of
status; a hook's own error is reported as a warning without aborting the
remaining hooks or changing the recorded Result.  In the passing run, finish
hooks `f1`,`f2` execute as `f2` then `f1` and the failure hook `g` never
runs; in the failing run, failure hooks run first (`g2`, then the warning
for the throwing `g1`), then finish hooks `f2`,`f1`, and the recorded
Result keeps the body's error. -/
theorem C7_side_channel_hooks :
    (runTestWithHooks DEFAULT_TIMEOUT initRunState fixC7pass "S p" {}).1.es.events =
      [Event.run "pbody", Event.run "f2", Event.run "f1"]
    ∧ (runTestWithHooks DEFAULT_TIMEOUT initRunState fixC7pass "S p" {}).2 =
        some (mkResult "p" "S p" Status.passed none 0)
    ∧ (runTestWithHooks DEFAULT_TIMEOUT initRunState fixC7fail "S f" {}).1.es.events =
        [Event.run "fbody", Event.run "g2", Event.warn "onTestFailed hook failed: gboom",
          Event.run "f2", Event.run "f1"]
    ∧ (runTestWithHooks DEFAULT_TIMEOUT initRunState fixC7fail "S f" {}).2 =
        some (mkResult "f" "S f" Status.failed (some "boom") 0) :=
  ⟨by decide, by decide, by decide, by decide⟩

/-- C8 counterexample: after a test execution completes, its callback lists
have been cleared but `currentTestId` still holds the finished test's
identifier, so a late `onTestFinished` call does not throw the usage error —
it succeeds and silently re-creates the deleted map entry — contradicting
the claim that any call made when no test is executing throws
"can only be called during test execution". -/
theorem C8_counterexample :
    fixC8run.1.es.reg.currentTestId = some 0
    ∧ fixC8run.1.es.reg.finished = []
    ∧ onTestFinished fixC8run.1.es.reg ⟨"late", none⟩ =
        Except.ok ⟨[(0, [⟨"late", none⟩])], [], some 0⟩ :=
  ⟨rfl, rfl, rfl⟩

/-- C9 counterexample: a test with `retry = 1` whose body registers the
finish hook `late1` and fails on attempt 1, then registers `late2` and
passes on attempt 2, uses one single identifier for both attempts (exactly
one identifier is allocated for the whole execution), and the hook
registered during the failed first attempt still executes after the final
attempt (`late2` then `late1`) — contradicting the claim that each retry
attempt receives a fresh identifier whose callback lists are destroyed
immediately after that attempt's hooks. -/
theorem C9_counterexample :
    fixC9run.1.nextId = 1
    ∧ fixC9run.2 = some (mkResult "r" "S r" Status.passed none 0)
    ∧ fixC9run.1.es.events =
        [Event.run "rbody", Event.run "rbody", Event.run "late2", Event.run "late1"] :=
  ⟨rfl, by decide, by decide⟩

/-- C10 (confirmed): `it.each([[1,2,3],[2,3,5]])` applied to the template
`"%i+%i=%i"` registers exactly two tests named `1+2=3` and `2+3=5`, each
`%`-placeholder consuming the next case value left-to-right; the body
receives the case array as positional arguments, and with the body
asserting `a + b === e` both tests pass. -/
theorem C10_each_expansion :
    (fixC10tests.map fun t => t.name) = ["1+2=3", "2+3=5"]
    ∧ (runModule fixC10module).2 =
        [some (mkResult "1+2=3" "add 1+2=3" Status.passed none 0),
          some (mkResult "2+3=5" "add 2+3=5" Status.passed none 0)] :=
  ⟨by decide, by decide⟩

/-- C2 amended: a `skip`-marked suite emits `skipped` Results (zero
duration, no error) for its direct tests only and runs none of its own
hooks, after which its child suites are walked normally with the unchanged
inherited hooks — each child's own flags decide its fate, and the skipped
suite's each-hooks are not added to the inherited set. -/
theorem C2_skip_suite_amended (g : Nat) (st : RunState) (s : Suite) (pn : String)
    (ho : Bool) (ph : CurrentHooks) (hskip : s.skip = true) :
    runSuite g st s pn ho ph =
      ((runSuites g st s.children (if pn = "" then s.name else pn ++ " " ++ s.name) ho ph).1,
        (s.tests.map fun t =>
          some (mkResult t.name
            ((if pn = "" then s.name else pn ++ " " ++ s.name) ++ " " ++ t.name)
            Status.skipped none 0))
          ++ (runSuites g st s.children (if pn = "" then s.name else pn ++ " " ++ s.name) ho ph).2) := by
  cases s with
  | mk n ts o sk hk ch =>
    simp only [Suite.skip] at hskip
    subst hskip
    rcases hrs : runSuites g st ch (if pn = "" then n else pn ++ " " ++ n) ho ph with ⟨a, b⟩
    simp [runSuite, Suite.children, Suite.name, Suite.tests, hrs]

/-- Witness for the amended C2 theorem at the concrete skip scenario. -/
theorem C2_skip_suite_amended_witness :
    fixC2parent.skip = true
    ∧ runSuite DEFAULT_TIMEOUT initRunState fixC2parent "" false {} =
      ((runSuites DEFAULT_TIMEOUT initRunState fixC2parent.children
          (if "" = "" then fixC2parent.name else "" ++ " " ++ fixC2parent.name) false {}).1,
        (fixC2parent.tests.map fun t =>
          some (mkResult t.name
            ((if "" = "" then fixC2parent.name else "" ++ " " ++ fixC2parent.name) ++ " " ++ t.name)
            Status.skipped none 0))
          ++ (runSuites DEFAULT_TIMEOUT initRunState fixC2parent.children
              (if "" = "" then fixC2parent.name else "" ++ " " ++ fixC2parent.name) false {}).2) :=
  ⟨rfl, C2_skip_suite_amended DEFAULT_TIMEOUT initRunState fixC2parent "" false {} rfl⟩

/-- C3 amended: when a suite's `beforeAll` hooks fail with the wrapped
message `m`, the suite's own walk is replaced by the catch path: the hook
error is logged, every direct test of the suite passing the `only` filter is
recorded as `failed` with an error wrapping the hook failure, and the nested
suites are not walked — their tests receive no Results; the walk of the
surrounding module continues normally. -/
theorem C3_beforeAll_failure_amended (g : Nat) (st : RunState) (s : Suite) (pn : String)
    (ho : Bool) (ph : CurrentHooks) (es1 : ExecState) (m : String)
    (hskip : s.skip = false)
    (hrun : (ho && !s.only && !(hasOnlyInChildren s)) = false)
    (hba : runBeforeAllHooks st.es s.hooks.beforeAll = (es1, some m)) :
    runSuite g st s pn ho ph =
      ({ es := { es1 with events := es1.events ++
          [Event.warn ("Hook error in suite \"" ++
            (if pn = "" then s.name else pn ++ " " ++ s.name) ++ "\": " ++ m)] }
         nextId := st.nextId },
        (s.tests.filter fun t => !ho || t.only).map fun t =>
          some (mkResult t.name
            ((if pn = "" then s.name else pn ++ " " ++ s.name) ++ " " ++ t.name)
            Status.failed (some ("Suite hook failed: " ++ m)) 0)) := by
  cases s with
  | mk n ts o sk hk ch =>
    simp only [Suite.skip] at hskip
    subst hskip
    simp only [Suite.only, hasOnlyInChildren] at hrun
    simp only [Suite.hooks] at hba
    simp only [runSuite, Suite.name, Suite.tests]
    rw [if_neg Bool.false_ne_true, if_neg (fun hc => Bool.false_ne_true (hrun ▸ hc)), hba]

/-- Setting the current test identifier makes it the current one. -/
@[simp]
theorem currentId_setCurrentTestId (r : Registry) (testId : Nat) :
    (setCurrentTestId r testId).currentTestId = some testId := by
  simp only [setCurrentTestId]
  split <;> split <;> rfl

/-- Clearing a test's callback lists leaves the current identifier alone. -/
@[simp]
theorem currentId_clearTestHooks (r : Registry) (testId : Nat) :
    (clearTestHooks r testId).currentTestId = r.currentTestId := rfl

/-- A successful finish-hook registration does not change the current
identifier. -/
theorem currentId_onTestFinished (r : Registry) (h : SideHook) (r2 : Registry)
    (hok : onTestFinished r h = Except.ok r2) : r2.currentTestId = r.currentTestId := by
  cases hc : r.currentTestId with
  | none => simp [onTestFinished, getCurrentTestId, hc] at hok
  | some testId =>
    simp only [onTestFinished, getCurrentTestId, hc, Except.ok.injEq] at hok
    subst hok
    rfl

/-- A successful failure-hook registration does not change the current
identifier. -/
theorem currentId_onTestFailed (r : Registry) (h : SideHook) (r2 : Registry)
    (hok : onTestFailed r h = Except.ok r2) : r2.currentTestId = r.currentTestId := by
  cases hc : r.currentTestId with
  | none => simp [onTestFailed, getCurrentTestId, hc] at hok
  | some testId =>
    simp only [onTestFailed, getCurrentTestId, hc, Except.ok.injEq] at hok
    subst hok
    rfl

/-- A block of finish-hook registrations preserves the current identifier. -/
@[simp]
theorem currentId_applyFinishedRegs (hs : List SideHook) :
    ∀ r : Registry, (applyFinishedRegs r hs).1.currentTestId = r.currentTestId := by
  induction hs with
  | nil => intro r; rfl
  | cons h t ih =>
    intro r
    simp only [applyFinishedRegs]
    cases hok : onTestFinished r h with
    | error e => simp
    | ok r2 => simp only []; rw [ih r2, currentId_onTestFinished r h r2 hok]

/-- A block of failure-hook registrations preserves the current
identifier. -/
@[simp]
theorem currentId_applyFailedRegs (hs : List SideHook) :
    ∀ r : Registry, (applyFailedRegs r hs).1.currentTestId = r.currentTestId := by
  induction hs with
  | nil => intro r; rfl
  | cons h t ih =>
    intro r
    simp only [applyFailedRegs]
    cases hok : onTestFailed r h with
    | error e => simp
    | ok r2 => simp only []; rw [ih r2, currentId_onTestFailed r h r2 hok]

/-- Running one action preserves the current identifier. -/
@[simp]
theorem currentId_runAction (es : ExecState) (a : Action) (k : Nat) :
    (runAction es a k).1.reg.currentTestId = es.reg.currentTestId := by
  simp only [runAction]
  split
  next reg1 e h1 =>
    have hp := currentId_applyFinishedRegs (a.run k).regFinished
      { es with events := es.events ++ [Event.run a.label], clock := es.clock + (a.run k).duration }.reg
    rw [h1] at hp
    simpa using hp
  next reg1 h1 =>
    split
    next reg2 e h2 =>
      have hp := currentId_applyFinishedRegs (a.run k).regFinished
        { es with events := es.events ++ [Event.run a.label], clock := es.clock + (a.run k).duration }.reg
      rw [h1] at hp
      have hq := currentId_applyFailedRegs (a.run k).regFailed reg1
      rw [h2] at hq
      simp only []
      rw [hq, hp]
    next reg2 h2 =>
      have hp := currentId_applyFinishedRegs (a.run k).regFinished
        { es with events := es.events ++ [Event.run a.label], clock := es.clock + (a.run k).duration }.reg
      rw [h1] at hp
      have hq := currentId_applyFailedRegs (a.run k).regFailed reg1
      rw [h2] at hq
      simp only []
      rw [hq, hp]

/-- The setup-each block preserves the current identifier. -/
@[simp]
theorem currentId_runSetupEach (hooks : List Action) :
    ∀ (es : ExecState) (k : Nat),
      (runSetupEach es k hooks).1.reg.currentTestId = es.reg.currentTestId := by
  induction hooks with
  | nil => intro es k; rfl
  | cons h t ih =>
    intro es k
    simp only [runSetupEach]
    cases hra : runAction es h k with
    | mk es2 out =>
      have hp := currentId_runAction es h k
      rw [hra] at hp
      cases out with
      | none => simp only []; rw [ih es2 k, hp]
      | some m => simpa using hp

/-- The in-unit teardown block preserves the current identifier. -/
@[simp]
theorem currentId_runUnitTeardown (hooks : List Action) :
    ∀ (es : ExecState) (k : Nat),
      (runUnitTeardown es k hooks).1.reg.currentTestId = es.reg.currentTestId := by
  induction hooks with
  | nil => intro es k; rfl
  | cons h t ih =>
    intro es k
    simp only [runUnitTeardown]
    cases hra : runAction es h k with
    | mk es2 out =>
      have hp := currentId_runAction es h k
      rw [hra] at hp
      cases out with
      | none => simp only []; rw [ih es2 k, hp]
      | some m => simpa using hp

/-- The whole unit of work preserves the current identifier. -/
@[simp]
theorem currentId_runUnitOfWork (es : ExecState) (hooks : CurrentHooks) (body : Action)
    (k : Nat) : (runUnitOfWork es hooks body k).1.reg.currentTestId = es.reg.currentTestId := by
  simp only [runUnitOfWork]
  cases hse : runSetupEach es k hooks.beforeEach with
  | mk es1 out1 =>
    have hp := currentId_runSetupEach hooks.beforeEach es k
    rw [hse] at hp
    cases out1 with
    | some e => simpa using hp
    | none =>
      simp only []
      cases hra : runAction es1 body k with
      | mk es2 out2 =>
        have hq := currentId_runAction es1 body k
        rw [hra] at hq
        cases out2 with
        | some e => simp only []; rw [hq, hp]
        | none =>
          simp only []
          rw [currentId_runUnitTeardown hooks.afterEach.reverse es2 k, hq, hp]

/-- The timeout race does not touch the registry. -/
@[simp]
theorem applyTimeout_fst_reg (tmo baseClock : Nat) (es : ExecState) (out : Option String) :
    (applyTimeout tmo baseClock es out).1.reg = es.reg := by
  simp only [applyTimeout]
  split <;> rfl

/-- The best-effort extra teardown preserves the current identifier. -/
@[simp]
theorem currentId_runExtraTeardown (hooks : List Action) :
    ∀ (es : ExecState) (k : Nat),
      (runExtraTeardown es k hooks).reg.currentTestId = es.reg.currentTestId := by
  induction hooks with
  | nil => intro es k; rfl
  | cons h t ih =>
    intro es k
    simp only [runExtraTeardown]
    cases hra : runAction es h k with
    | mk es2 out =>
      have hp := currentId_runAction es h k
      rw [hra] at hp
      cases out with
      | none => simp only []; rw [ih es2 k, hp]
      | some m => simpa using hp

/-- The retry loop preserves the current identifier. -/
@[simp]
theorem currentId_runAttempts (g : Nat) (t : Test) (fn : String) (hooks : CurrentHooks)
    (sc : Nat) : ∀ (rem : Nat) (es : ExecState) (k : Nat),
      (runAttempts g es t fn hooks sc k rem).1.reg.currentTestId = es.reg.currentTestId := by
  intro rem
  induction rem with
  | zero => intro es k; rfl
  | succ n ih =>
    intro es k
    simp only [runAttempts]
    split
    · split <;> simp
    · split
      · split
        · split <;> simp
        · split <;> simp
      · rw [ih _ _]
        split <;> simp

/-- C9 amended: the executor allocates exactly one fresh identifier per
test execution (per `runTestWithHooks` invocation) — shared by all retry
attempts — and the finish/failure callback lists scoped to that identifier
are destroyed once, after the final attempt's side-channel hooks have run,
so the registry holds no entry for the identifier when the executor
returns. -/
theorem C9_execution_identifier_amended (g : Nat) (st : RunState) (t : Test)
    (full : String) (hooks : CurrentHooks) :
    (runTestWithHooks g st t full hooks).1.nextId = st.nextId + 1
    ∧ mapGet (runTestWithHooks g st t full hooks).1.es.reg.finished st.nextId = none
    ∧ mapGet (runTestWithHooks g st t full hooks).1.es.reg.failed st.nextId = none := by
  refine ⟨?_, ?_, ?_⟩ <;> simp [runTestWithHooks, clearTestHooks, mapGet_mapDelete]

/-- C8 amended: the side-channel registration functions consult only the
process-wide current test identifier: with no identifier set (before any
test has run) they throw the usage error "can only be called during test
execution", and whenever an identifier is set they succeed.  The executor
sets the identifier before running a test's hooks and body but never clears
it afterwards (only the callback lists are deleted), so a late call after a
test completes sees the stale — or the next test's — identifier and
registers silently instead of throwing. -/
theorem C8_registration_window_amended :
    (∀ (r : Registry) (h : SideHook), r.currentTestId = none →
      onTestFinished r h = Except.error "onTestFinished can only be called during test execution"
      ∧ onTestFailed r h = Except.error "onTestFailed can only be called during test execution")
    ∧ (∀ (r : Registry) (h : SideHook) (testId : Nat), r.currentTestId = some testId →
      ∃ r2, onTestFinished r h = Except.ok r2)
    ∧ (∀ (g : Nat) (st : RunState) (t : Test) (full : String) (hooks : CurrentHooks),
      (runTestWithHooks g st t full hooks).1.es.reg.currentTestId = some st.nextId) := by
  refine ⟨?_, ?_, ?_⟩
  · intro r h hc
    constructor
    · simp [onTestFinished, getCurrentTestId, hc]
    · simp [onTestFailed, getCurrentTestId, hc]
  · intro r h testId hc
    refine ⟨{ r with
      finished := mapSet r.finished testId (((mapGet r.finished testId).getD []) ++ [h]) }, ?_⟩
    simp [onTestFinished, getCurrentTestId, hc]
  · intro g st t full hooks
    simp only [runTestWithHooks, currentId_clearTestHooks]
    split
    · split
      · simp
      · split
        · simp
        · split
          · simp
          · simp
    · split
      · simp
      · split
        · simp
        · split
          · simp
          · simp

/-- Witness for the amended C8 theorem: the error at process start, a
successful registration under a set identifier, and the stale identifier
left visible after a completed execution. -/
theorem C8_registration_window_amended_witness :
    (onTestFinished initRegistry ⟨"w", none⟩ =
      Except.error "onTestFinished can only be called during test execution")
    ∧ (∃ r2, onTestFinished ⟨[], [], some 5⟩ ⟨"w", none⟩ = Except.ok r2)
    ∧ (runTestWithHooks DEFAULT_TIMEOUT initRunState (it "t" {} (act "tbody"))
        "S t" {}).1.es.reg.currentTestId = some 0 :=
  ⟨(C8_registration_window_amended.1 initRegistry ⟨"w", none⟩ rfl).1,
    C8_registration_window_amended.2.1 ⟨[], [], some 5⟩ ⟨"w", none⟩ 5 rfl,
    C8_registration_window_amended.2.2 DEFAULT_TIMEOUT initRunState
      (it "t" {} (act "tbody")) "S t" {}⟩

/-- With a positive attempt budget the retry loop always produces a
result. -/
theorem runAttempts_pos_isSome (g : Nat) (t : Test) (fn : String) (hooks : CurrentHooks)
    (sc : Nat) : ∀ rem, rem ≠ 0 → ∀ (es : ExecState) (k : Nat),
      ((runAttempts g es t fn hooks sc k rem).2).isSome = true := by
  intro rem
  induction rem with
  | zero => intro hrem; exact absurd rfl hrem
  | succ n ih =>
    intro _ es k
    simp only [runAttempts]
    split
    · by_cases hf : t.fails = true <;> simp [hf]
    · by_cases hn : n = 0
      · subst hn
        simp only [if_pos rfl]
        by_cases hf : t.fails = true <;> simp [hf]
      · simp only [if_neg hn]
        exact ih hn _ _

/-- A test whose `retry` field is present always yields a result from the
executor (the attempt loop runs at least once, or the skip/todo short
circuits produce one). -/
theorem runTestWithHooks_retry_isSome (g : Nat) (st : RunState) (t : Test) (full : String)
    (hooks : CurrentHooks) (h : t.retry.isSome = true) :
    ((runTestWithHooks g st t full hooks).2).isSome = true := by
  obtain ⟨r, hr⟩ := Option.isSome_iff_exists.mp h
  by_cases hs : t.skip = true
  · simp [runTestWithHooks, hs]
  · by_cases ht : t.todo = true
    · simp [runTestWithHooks, hs, ht]
    · simp only [runTestWithHooks, hs, ht, hr, if_neg, ite_false]
      simp only [Bool.false_eq_true, if_false]
      exact runAttempts_pos_isSome g t full hooks _ (r + 1) (Nat.succ_ne_zero r) _ 1

/-- C1 amended: when the module-wide `hasOnly` flag is set, the walker's
test loop over a suite's direct tests runs exactly those tests whose own
`only` flag is set — equivalently, filtering first and then running every
test unconditionally — so a test marked `only` solely via an ancestor
suite's flag is omitted entirely; this equivalence holds provided every
`only`-marked test carries a `retry` field (tests declared via
`it(name, {only: true}, fn)`).  Tests created by `it.only` have no `retry`
field, so their attempt loop never runs and the executor returns no result
at all, rather than a normal Result. -/
theorem C1_only_filter_amended :
    (∀ (g : Nat) (st : RunState) (tests : List Test) (full : String) (hooks : CurrentHooks),
      (∀ t ∈ tests, t.only = true → t.retry.isSome = true) →
      runSuiteTests g st tests full true hooks =
        ((runTestsPlain g st (tests.filter fun t => t.only) full hooks).1,
          (runTestsPlain g st (tests.filter fun t => t.only) full hooks).2, none))
    ∧ (∀ (nm : String) (fn : Action), (itOnly nm fn).retry = none)
    ∧ (∀ (g : Nat) (st : RunState) (nm : String) (fn : Action) (full : String)
        (hooks : CurrentHooks), (runTestWithHooks g st (itOnly nm fn) full hooks).2 = none) := by
  refine ⟨?_, fun nm fn => rfl, fun g st nm fn full hooks => rfl⟩
  intro g st tests full hooks
  induction tests generalizing st with
  | nil => intro _; rfl
  | cons t rest ih =>
    intro hret
    have hmemrest : ∀ t' ∈ rest, t'.only = true → t'.retry.isSome = true :=
      fun t' ht' => hret t' (List.mem_cons_of_mem t ht')
    by_cases ho : t.only = true
    · have hsome := runTestWithHooks_retry_isSome g st t (full ++ " " ++ t.name) hooks
        (hret t (List.mem_cons_self t rest) ho)
      obtain ⟨rr, hrr⟩ := Option.isSome_iff_exists.mp hsome
      have ih2 := ih (runTestWithHooks g st t (full ++ " " ++ t.name) hooks).1 hmemrest
      simp only [runSuiteTests, runTestsPlain, List.filter_cons, ho, hrr, Bool.not_true,
        Bool.and_false, Bool.false_eq_true, if_false, if_true, ih2]
    · have ho' : t.only = false := by revert ho; cases t.only <;> simp
      simp only [runSuiteTests, List.filter_cons, ho', Bool.not_false, Bool.and_true,
        Bool.false_eq_true, if_false, if_true]
      exact ih st hmemrest

/-- Witness for the amended C1 theorem: a suite-level test list holding one
`only`-marked and one unmarked test, both declared with a retry count. -/
theorem C1_only_filter_amended_witness :
    (∀ t ∈ [it "w1" { only := true } (act "w1body"), it "w2" {} (act "w2body")],
      t.only = true → t.retry.isSome = true)
    ∧ runSuiteTests DEFAULT_TIMEOUT initRunState
        [it "w1" { only := true } (act "w1body"), it "w2" {} (act "w2body")] "W" true {} =
      ((runTestsPlain DEFAULT_TIMEOUT initRunState
          ([it "w1" { only := true } (act "w1body"), it "w2" {} (act "w2body")].filter
            fun t => t.only) "W" {}).1,
        (runTestsPlain DEFAULT_TIMEOUT initRunState
          ([it "w1" { only := true } (act "w1body"), it "w2" {} (act "w2body")].filter
            fun t => t.only) "W" {}).2, none) :=
  ⟨by decide, C1_only_filter_amended.1 DEFAULT_TIMEOUT initRunState
    [it "w1" { only := true } (act "w1body"), it "w2" {} (act "w2body")] "W" {} (by decide)⟩

/-- C5 (confirmed): the executor races the hooks-plus-body unit of work
against the effective deadline (per-test override if set, else the global
default).  Concretely, a test with a 50 ms override whose body settles after
500 ms yields one failed Result whose error mentions "timed out after 50ms".
Generally, when the unit of work settles strictly before the deadline the
timer is cancelled and the settlement propagates unchanged: a successful
settlement yields a passed Result with the settlement duration, and an error
settlement yields a failed Result carrying exactly that error. -/
theorem C5_timeout_race :
    ((runTestWithHooks DEFAULT_TIMEOUT initRunState fixC5test "S slow" {}).2 =
        some (mkResult "slow" "S slow" Status.failed (some "Test timed out after 50ms") 50)
      ∧ strContains "Test timed out after 50ms" "timed out after 50ms" = true)
    ∧ (∀ (g : Nat) (st : RunState) (t : Test) (full : String) (hooks : CurrentHooks)
        (es1 : ExecState) (out : Option String),
        t.skip = false → t.todo = false → t.fails = false → t.retry = some 0 →
        runUnitOfWork { st.es with reg := setCurrentTestId st.es.reg st.nextId }
          hooks t.body 1 = (es1, out) →
        es1.clock - st.es.clock < effTimeout t g →
        ((out = none →
          (runTestWithHooks g st t full hooks).2 =
            some (mkResult t.name full Status.passed none (es1.clock - st.es.clock)))
        ∧ ∀ m, out = some m →
          ∃ d, (runTestWithHooks g st t full hooks).2 =
            some (mkResult t.name full Status.failed (some m) d))) := by
  constructor
  · exact ⟨by decide, by decide⟩
  · intro g st t full hooks es1 out hskip htodo hfails hretry hwork hlt
    have hnot : ¬ (effTimeout t g ≤ es1.clock - st.es.clock) := Nat.not_le.mpr hlt
    constructor
    · intro hout
      subst hout
      simp only [runTestWithHooks, runAttempts, applyTimeout, hskip, htodo, hfails, hretry,
        hwork, Bool.false_eq_true, if_false, Nat.zero_add, hnot]
    · intro m hm
      subst hm
      refine ⟨(if strContains m "timed out" then es1
        else runExtraTeardown es1 1 hooks.afterEach.reverse).clock - st.es.clock, ?_⟩
      simp only [runTestWithHooks, runAttempts, applyTimeout, hskip, htodo, hfails, hretry,
        hwork, Bool.false_eq_true, if_false, Nat.zero_add, hnot]
      simp

/-- Witness for the timeout-race theorem at a concrete fast test: a body
settling successfully after 3 ms, well under the 5000 ms default deadline,
propagates its success unchanged. -/
theorem C5_timeout_race_witness :
    (3 : Nat) - 0 < effTimeout fixC5fast DEFAULT_TIMEOUT
    ∧ (runTestWithHooks DEFAULT_TIMEOUT initRunState fixC5fast "F fast" {}).2 =
        some (mkResult "fast" "F fast" Status.passed none 3) :=
  ⟨by decide,
    (C5_timeout_race.2 DEFAULT_TIMEOUT initRunState fixC5fast "F fast" {}
      ⟨setCurrentTestId initRegistry 0, [Event.run "fastBody"], 3⟩ none
      rfl rfl rfl rfl rfl (by decide)).1 rfl⟩

/-- C6 amended: after a failed non-final attempt, the extra best-effort
teardown-each run happens if and only if the attempt's error message does
not contain the substring "timed out" — genuine timeouts are skipped, but so
is any other failure whose message merely contains that substring.  With one
`afterEach` hook, a first attempt failing with message `m` and a passing
second attempt, the hook runs between the attempts exactly when `m` lacks
the substring (and in both cases once inside the successful second
attempt). -/
theorem C6_extra_teardown_amended (m : String) :
    (runTestWithHooks DEFAULT_TIMEOUT initRunState (fixC6testM m) "S t" fixC6hooks).1.es.events =
      (if strContains m "timed out" then
        [Event.run "body", Event.run "body", Event.run "ae"]
      else
        [Event.run "body", Event.run "ae", Event.run "body", Event.run "ae"])
    ∧ (runTestWithHooks DEFAULT_TIMEOUT initRunState (fixC6testM m) "S t" fixC6hooks).2 =
        some (mkResult "t" "S t" Status.passed none 0) := by
  by_cases h : strContains m "timed out" = true
  · constructor <;>
      simp [runTestWithHooks, runAttempts, runUnitOfWork, runSetupEach, runUnitTeardown,
        runExtraTeardown, runAction, applyFinishedRegs, applyFailedRegs, applyTimeout,
        effTimeout, fixC6testM, fixC6bodyM, fixC6hooks, it, act, setCurrentTestId,
        clearTestHooks, getCurrentTestId, onTestFinished, onTestFailed,
        executeOnTestFinishedHooks, executeOnTestFailedHooks, mapGet, mapSet, mapDelete,
        initRunState, initExecState, initRegistry, DEFAULT_TIMEOUT, mkResult, h]
  · constructor <;>
      simp [runTestWithHooks, runAttempts, runUnitOfWork, runSetupEach, runUnitTeardown,
        runExtraTeardown, runAction, applyFinishedRegs, applyFailedRegs, applyTimeout,
        effTimeout, fixC6testM, fixC6bodyM, fixC6hooks, it, act, setCurrentTestId,
        clearTestHooks, getCurrentTestId, onTestFinished, onTestFailed,
        executeOnTestFinishedHooks, executeOnTestFailedHooks, mapGet, mapSet, mapDelete,
        initRunState, initExecState, initRegistry, DEFAULT_TIMEOUT, mkResult, h]

/-- Witness for the amended C3 theorem at the concrete failing-hook
scenario. -/
theorem C3_beforeAll_failure_amended_witness :
    runSuite DEFAULT_TIMEOUT initRunState fixC3suite "" false {} =
      ({ es := { reg := initRegistry
                 events := [Event.run "ba",
                   Event.warn "Hook error in suite \"S\": beforeAll hook failed: boom"]
                 clock := 0 }
         nextId := 0 },
        [some (mkResult "s1" "S s1" Status.failed
          (some "Suite hook failed: beforeAll hook failed: boom") 0)]) :=
  C3_beforeAll_failure_amended DEFAULT_TIMEOUT initRunState fixC3suite "" false {}
    ⟨initRegistry, [Event.run "ba"], 0⟩ "beforeAll hook failed: boom" rfl rfl rfl

end Litest
